import Mathlib

/-!
A shallow embedding of the FreeRTOS thread-view engine of this repository
(`src/frontend/rtos/rtos-freertos.ts`), together with theorems checking the
specification's claims about it.

Modelling conventions:
* JavaScript numbers that can be NaN are `Option Int` (`none` = NaN);
  `parseInt` is modelled by `parseIntStr`/`parseIntD` below.
* Debugger values that can be `undefined`/`null` are `Option String`.
* Promise rejections and thrown exceptions are `Except`.
* The external debug-session collaborator (variable reads, raw memory
  reads) is an oracle record `DebugEnv` of total functions returning
  `Except`; theorems quantify over it.
* Variable references (`varReference` numbers) are `Option Nat`
  (`none` = absent handle, `0` = falsy reference).
-/

namespace RTOSFreeRTOS

/-- JS truthiness of a possibly-absent string: `undefined`/`null` and `""`
are falsy, every other string (including `"0"`) is truthy. -/
def truthyS : Option String → Bool
  | none => false
  | some s => !s.isEmpty

/-- JS truthiness of a possibly-NaN number: `0`, `NaN` and absence are falsy. -/
def jtruthyNum : Option Int → Bool
  | none => false
  | some v => v != 0

/-- JS subtraction with NaN propagation. -/
def jsub : Option Int → Option Int → Option Int
  | some a, some b => some (a - b)
  | _, _ => none

/-- JS `Math.abs` with NaN propagation. -/
def jabs : Option Int → Option Int
  | some a => some |a|
  | none => none

/-- JS `x < b`: comparisons against NaN are false. -/
def jlt (x : Option Int) (b : Int) : Bool :=
  match x with
  | some v => decide (v < b)
  | none => false

/-- JS `x > b`: comparisons against NaN are false. -/
def jgt (x : Option Int) (b : Int) : Bool :=
  match x with
  | some v => decide (b < v)
  | none => false

/-- JS `x <= b`: comparisons against NaN are false. -/
def jle (x : Option Int) (b : Int) : Bool :=
  match x with
  | some v => decide (v ≤ b)
  | none => false

/-- JS `n >= x` for an array length against a possibly-NaN number. -/
def jgeLenB (n : Nat) (x : Option Int) : Bool :=
  match x with
  | some v => decide (v ≤ (n : Int))
  | none => false

/-- JS strict equality `===` on numbers: false whenever either side is NaN. -/
def jeqI : Option Int → Option Int → Bool
  | some a, some b => a == b
  | _, _ => false

/-- JS number-to-string coercion (`NaN` prints as `"NaN"`). -/
def jnumToString : Option Int → String
  | some v => toString v
  | none => "NaN"

/-- JS string coercion of a possibly-undefined value, as produced by
`'prefix' + x` (prints `undefined` for an absent value). -/
def jstr : Option String → String
  | some s => s
  | none => "undefined"

def digitVal (c : Char) : Option Nat :=
  if '0' ≤ c ∧ c ≤ '9' then some (c.toNat - '0'.toNat) else none

def hexDigitVal (c : Char) : Option Nat :=
  if '0' ≤ c ∧ c ≤ '9' then some (c.toNat - '0'.toNat)
  else if 'a' ≤ c ∧ c ≤ 'f' then some (c.toNat - 'a'.toNat + 10)
  else if 'A' ≤ c ∧ c ≤ 'F' then some (c.toNat - 'A'.toNat + 10)
  else none

/-- Longest digit-prefix accumulator used by the `parseInt` model; `none`
means no digit has been consumed yet (the NaN case). -/
def parseDigits (base : Nat) (dv : Char → Option Nat) : List Char → Option Nat → Option Nat
  | [], acc => acc
  | c :: cs, acc =>
    match dv c with
    | some d => parseDigits base dv cs (some (acc.getD 0 * base + d))
    | none => acc

/-- Model of JavaScript `parseInt(str)`: skip leading whitespace, optional
sign, auto-detected `0x`/`0X` prefix, longest digit prefix; `none` models
the NaN result when no digit is found. -/
def parseIntStr (s : String) : Option Int :=
  let cs := s.toList.dropWhile Char.isWhitespace
  let signed : Bool × List Char :=
    match cs with
    | '-' :: rest => (true, rest)
    | '+' :: rest => (false, rest)
    | _ => (false, cs)
  let mag : Option Nat :=
    match signed.2 with
    | '0' :: 'x' :: rest => parseDigits 16 hexDigitVal rest none
    | '0' :: 'X' :: rest => parseDigits 16 hexDigitVal rest none
    | _ => parseDigits 10 digitVal signed.2 none
  mag.map fun m => if signed.1 then -(m : Int) else (m : Int)

/-- `parseInt` applied to a possibly-undefined debugger value
(`parseInt(undefined)` is NaN). -/
def parseIntD : Option String → Option Int
  | none => none
  | some s => parseIntStr s

def padStart (n : Nat) (c : Char) (s : String) : String :=
  if s.length < n then String.mk (List.replicate (n - s.length) c) ++ s else s

def hexDigitChar (n : Nat) : Char :=
  if n < 10 then Char.ofNat ('0'.toNat + n) else Char.ofNat ('a'.toNat + (n - 10))

def natToHexAux (n : Nat) (acc : List Char) : List Char :=
  if h : n = 0 then acc
  else natToHexAux (n / 16) (hexDigitChar (n % 16) :: acc)
termination_by n
decreasing_by exact Nat.div_lt_self (Nat.pos_of_ne_zero h) (by norm_num)

/-- Modelled from the spec: `hexFormat` is one of the "symbol/memory
formatting helpers" the spec places out of core scope (its source,
`src/utils.ts`, is not part of the covered core); it renders a number as a
`0x`-prefixed, zero-padded hexadecimal string, NaN rendering through
JavaScript string coercion. -/
def hexFormat (v : Option Int) (padding : Nat := 8) : String :=
  match v with
  | none => "0x" ++ padStart padding '0' "NaN"
  | some n =>
    let digits :=
      if n = 0 then "0"
      else if n < 0 then "-" ++ String.mk (natToHexAux n.natAbs [])
      else String.mk (natToHexAux n.natAbs [])
    "0x" ++ padStart padding '0' digits

/-- Model of JavaScript `Number.prototype.toFixed(2)` on the exact rational
value of the number (binary floating-point rounding error is not modelled):
round to the nearest hundredth, ties away from zero, and print with exactly
two decimals. -/
def fixed2OfNat (n : Nat) : String :=
  let f := n % 100
  let fs := if f < 10 then "0" ++ toString f else toString f
  toString (n / 100) ++ "." ++ fs

def toFixed2 (q : ℚ) : String :=
  if q < 0 then "-" ++ fixed2OfNat (⌊-q * 100 + 1 / 2⌋).toNat
  else fixed2OfNat (⌊q * 100 + 1 / 2⌋).toNat

/-- The TCB fields used by `getStackInfo`/`getThreadInfo`, i.e. the values of
the `-val`/`-exp` entries of the object returned by
`getExprValChildrenObj(((TCB_t*)addr))`; each may be absent. -/
structure TcbFields where
  pxStack : Option String := none
  pxTopOfStack : Option String := none
  pxEndOfStack : Option String := none
  pcTaskName : Option String := none
  uxTCBNumber : Option String := none
  uxPriority : Option String := none
  uxBasePriority : Option String := none
  ulRunTimeCounter : Option String := none
deriving Repr, DecidableEq

/-- `RTOSStackInfo` (shape taken from its uses in `rtos-freertos.ts`): the
first three fields are always assigned, the rest only when a static
end-of-stack bound is known. -/
structure RTOSStackInfo where
  stackStart : Option Int
  stackTopCurrent : Option Int
  stackCurUsed : Option Int
  stackEnd : Option Int := none
  stackSize : Option Int := none
  stackFree : Option Int := none
  stackPeakUsed : Option Nat := none
  bytes : Option (List Nat) := none
deriving Repr, DecidableEq

/-- The watermark loop of `getStackInfo`: `top` starts at the length and
decreases while the byte below it equals the fill byte; the result is the
length minus the number of trailing fill bytes. -/
def watermarkTop (bytes : List Nat) (waterMark : Nat) : Nat :=
  bytes.length - (bytes.reverse.takeWhile (fun b => b == waterMark)).length

/-- `getStackInfo(thInfo, waterMark)`.  `readMem` is the
`customRequest('readMemory', ...)` oracle, keyed by the memory reference
(an address, NaN-able) and byte count.  In the static-bound branch a read
failure is caught (`try`/`catch`) and only leaves `stackPeakUsed` unset; in
the no-bound branch the read is *not* guarded and a failure propagates. -/
def getStackInfo (thInfo : TcbFields) (waterMark : Nat)
    (readMem : Option Int → Option Int → Except Unit (List Nat)) :
    Except Unit RTOSStackInfo :=
  let stackStart := parseIntD thInfo.pxStack
  let stackTopCurrent := parseIntD thInfo.pxTopOfStack
  let stackUsedCur := jsub stackStart stackTopCurrent
  let stackCurUsed := jabs stackUsedCur
  if truthyS thInfo.pxEndOfStack then
    let stackEnd := parseIntD thInfo.pxEndOfStack
    let szSigned := jsub stackStart stackEnd
    let incr : Int := if jlt szSigned 0 then 1 else -1
    let stackSize := jabs szSigned
    let stackFree := jsub stackSize stackCurUsed
    let memRef := if incr > 0 then stackStart else stackEnd
    match readMem memRef stackSize with
    | .ok data =>
      let bytes := if incr < 0 then data.reverse else data
      .ok { stackStart, stackTopCurrent, stackCurUsed, stackEnd, stackSize, stackFree,
            stackPeakUsed := some (watermarkTop bytes waterMark), bytes := some bytes }
    | .error _ =>
      .ok { stackStart, stackTopCurrent, stackCurUsed, stackEnd, stackSize, stackFree }
  else
    let incr : Int := if jlt stackUsedCur 0 then 1 else -1
    let memRef := if incr > 0 then stackStart else stackTopCurrent
    match readMem memRef stackCurUsed with
    | .ok _ => .ok { stackStart, stackTopCurrent, stackCurUsed }
    | .error e => .error e

/-- Model of the task-name regex `/"([^*]*)"$/` of `getThreadInfo`: the
leftmost `"`, followed by `*`-free characters, followed by a `"` that ends
the string; the capture group is returned.  `leftQuote` scans the part of
the string before the final quote. -/
def leftQuote : List Char → Option String
  | [] => none
  | c :: cs =>
    if c == '"' && cs.all (fun d => d != '*') then some (String.mk cs)
    else leftQuote cs

def extractQuoted (s : String) : Option String :=
  match s.toList.reverse with
  | '"' :: revBody => leftQuote revBody.reverse
  | _ => none

/-- One reconstructed task (`FreeRTOSThreadInfo`).  Optional fields model
object properties that the code only sometimes creates (or deletes). -/
structure ThreadRec where
  id : Option String           -- 'ID' (deleted when not a string)
  address : String             -- 'Address'
  taskName : String            -- 'Task Name'
  status : String              -- 'Status'
  prio : String                -- 'Prio'
  stackBeg : String            -- 'Stack Beg'
  stackTop : String            -- 'Stack Top'
  stackUsed : String           -- 'Stack Used'
  stackEnd : String            -- 'Stack End' (always set: hex or '&lt;Unknown&gt;')
  stackSizeF : Option String   -- 'Stack Size'
  stackPeakF : Option String   -- 'Stack Peak'
  stackFreeF : Option String   -- 'Stack Free'
  runtime : Option String      -- 'Runtime'
  stackInfo : RTOSStackInfo    -- 'stackInfo'
deriving Repr, DecidableEq

/-- Lines 204-207: the Runtime field is created only when
`thInfo['ulRunTimeCounter-val']` (a string, so `"0"` is truthy) and
`this.ulTotalRunTimeVal` (a number, so `0`/NaN are falsy) are both truthy;
its value is `((parseInt(c) / total) * 100).toFixed(2).padStart(5, '0') + '%'`. -/
def runtimeField (counterStr : Option String) (ulTotalRunTimeVal : Option Int) : Option String :=
  if truthyS counterStr && jtruthyNum ulTotalRunTimeVal then
    let pct : Option ℚ :=
      match parseIntD counterStr, ulTotalRunTimeVal with
      | some c, some t => some ((c : ℚ) / (t : ℚ) * 100)
      | _, _ => none
    let tmp := match pct with
      | some q => toFixed2 q
      | none => "NaN"
    some (padStart 5 '0' tmp ++ "%")
  else none

/-- Lines 178-207 of `getThreadInfo`: assembling one `FreeRTOSThreadInfo`
record from the decoded TCB, the stack analysis and the pass-wide values. -/
def buildThreadRec (thInfo : TcbFields) (thName : String) (stackInfo : RTOSStackInfo)
    (threadId curThreadAddr ulTotalRunTimeVal : Option Int) (state : String) : ThreadRec :=
  let prio0 := jstr thInfo.uxPriority
  let sized := jtruthyNum stackInfo.stackSize
  { id := thInfo.uxTCBNumber
    address := hexFormat threadId
    taskName := thName
    status := if jeqI threadId curThreadAddr then "RUNNING" else state
    prio := if truthyS thInfo.uxBasePriority then prio0 ++ "," ++ jstr thInfo.uxBasePriority else prio0
    stackBeg := hexFormat stackInfo.stackStart
    stackTop := hexFormat stackInfo.stackTopCurrent
    stackUsed := jnumToString stackInfo.stackCurUsed
    stackEnd := if sized then hexFormat stackInfo.stackEnd else "&lt;Unknown&gt;"
    stackSizeF := if sized then some (jnumToString stackInfo.stackSize) else none
    stackPeakF :=
      if sized then
        some (match stackInfo.stackPeakUsed with
          | some p => if p != 0 then toString p else "Read mem fail"
          | none => "Read mem fail")
      else none
    stackFreeF := if sized then some (jnumToString stackInfo.stackFree) else none
    runtime := runtimeField thInfo.ulRunTimeCounter ulTotalRunTimeVal
    stackInfo := stackInfo }

/-- Lines 125-129 of `refresh`: the sort-key decision inspects only
`this.foundThreads[0]['ID']`; indexing element 0 of an empty array yields
`undefined`, and the property access on it throws a TypeError. -/
inductive SortKey
  | byId
  | byAddress
deriving Repr, DecidableEq

def chooseSortKey : List ThreadRec → Except Unit SortKey
  | [] => .error ()
  | t :: _ => .ok (if truthyS t.id then .byId else .byAddress)

/-- From the spec's words, for comparison with `chooseSortKey`: sort by ID
exactly when *every* record carries an ID, otherwise by address. -/
def specSortKey (ts : List ThreadRec) : SortKey :=
  if ts.all (fun t => t.id.isSome) then .byId else .byAddress

/-- `comparator(a,b) <= 0` for a JS sort comparator of the form `x - y`.
`SortCompare` maps a NaN comparator result to `+0` (equal), and the sort is
stable, so such a pair keeps its relative order — which a stable insertion
sort treating the comparison as `true` reproduces. -/
def jcmpLe (x y : Option Int) : Bool :=
  match jsub x y with
  | some d => decide (d ≤ 0)
  | none => true

def idLe (a b : ThreadRec) : Bool := jcmpLe (parseIntD a.id) (parseIntD b.id)

def addrLe (a b : ThreadRec) : Bool := jcmpLe (parseIntStr a.address) (parseIntStr b.address)

/-- Stable insertion sort, the model of `Array.prototype.sort` (stable per
ECMAScript 2019) with a boolean `comparator(a,b) <= 0` relation. -/
def insertOrd (le : α → α → Bool) (x : α) : List α → List α
  | [] => [x]
  | b :: l => if le x b then x :: b :: l else b :: insertOrd le x l

def insSort (le : α → α → Bool) : List α → List α
  | [] => []
  | x :: l => insertOrd le x (insSort le l)

/-- Lines 125-130 of `refresh`: pick the comparator from record 0, sort,
and (at the call site) publish a copy. -/
def sortFoundThreads (ts : List ThreadRec) : Except Unit (List ThreadRec) :=
  match chooseSortKey ts with
  | .error e => .error e
  | .ok .byId => .ok (insSort idLe ts)
  | .ok .byAddress => .ok (insSort addrLe ts)

/-- The object returned by `varRef.getVarChildrenObj` for a FreeRTOS list:
its `uxNumberOfItems-val` and `xListEnd-ref` entries. -/
structure ListHeadObj where
  uxNumberOfItems : Option String := none
  xListEnd : Option Nat := none
deriving Repr, DecidableEq

/-- The object returned by `getVarChildrenObj` for a list item (also used
for the `xListEnd` sentinel): `pvOwner-val` and `pxPrevious-ref`. -/
structure NodeObj where
  pvOwner : Option String := none
  pxPrevious : Option Nat := none
deriving Repr, DecidableEq

/-- The external debug-session collaborator, as a record of oracles.  The
TCB oracle is keyed by the owning TCB address (the expression string passed
to `getExprValChildrenObj` is a function of that address).
`progStatusAtList i` is the value of the mutable `progStatus` field observed
at the `i`-th `getThreadInfo` call of a pass (it can change between awaits). -/
structure DebugEnv where
  numTasksStr : Except Unit (Option String)
  readyListsChildren : Except Unit (List (Option Nat))
  totalRunTimeStr : Except Unit (Option String)
  curTCBStr : Except Unit (Option String)
  listHead : Nat → Except Unit ListHeadObj
  nodeObj : Option Nat → Except Unit NodeObj
  tcb : Option Int → Except Unit TcbFields
  exprVal : String → Except Unit String
  readMem : Option Int → Option Int → Except Unit (List Nat)
  progStatusAtList : Nat → String
  nowISO : String := ""
  deltaMs : Nat := 0

/-- Truthiness of a `varReference` (`!varRef || !varRef.varReference` and
`!listEndRef`): absent or `0` is falsy. -/
def refOk : Option Nat → Bool
  | none => false
  | some r => r != 0

/-- How one `getThreadInfo` promise can end.  `hang` models the inner
`catch` (line 213-215) that only logs: the promise never settles, so the
records pushed so far stay in `this.foundThreads` but the caller's `await`
never returns. -/
inductive TIOutcome
  | ok (found : List ThreadRec)
  | busyRej (found : List ThreadRec)
  | readRej (found : List ThreadRec)
  | hang (found : List ThreadRec)
deriving Repr, DecidableEq

/-- The `for (let thIx = 0; thIx < threadCount; thIx++)` loop of
`getThreadInfo`: follow `pxPrevious` links exactly `fuel` times, pushing one
record per node; any read failure inside the loop body is swallowed by the
outer catch (`hang`). -/
def walkNodes (env : DebugEnv) (curThreadAddr ulTotalRunTimeVal : Option Int) (state : String) :
    Nat → Option Nat → List ThreadRec → TIOutcome
  | 0, _, found => .ok found
  | n + 1, curRef, found =>
    match env.nodeObj curRef with
    | .error _ => .hang found
    | .ok element =>
      let threadId := parseIntD element.pvOwner
      match env.tcb threadId with
      | .error _ => .hang found
      | .ok thInfo =>
        match env.exprVal ("(char *)" ++ jstr thInfo.pcTaskName) with
        | .error _ => .hang found
        | .ok tmpThName =>
          let thName := (extractQuoted tmpThName).getD tmpThName
          match getStackInfo thInfo 0xA5 env.readMem with
          | .error _ => .hang found
          | .ok stackInfo =>
            let th := buildThreadRec thInfo thName stackInfo threadId curThreadAddr
              ulTotalRunTimeVal state
            walkNodes env curThreadAddr ulTotalRunTimeVal state n element.pxPrevious
              (found ++ [th])

/-- `getThreadInfo(varRef, state, frameId)` (lines 150-220).  Guard order is
the source's: the absent-handle / capacity no-op check comes *before* the
Busy check; the list-head read failure rejects; the sentinel read failure is
inside the `try` and therefore hangs. -/
def getThreadInfo (env : DebugEnv) (progStatus : String) (varRef : Option Nat)
    (uxCurrentNumberOfTasksVal curThreadAddr ulTotalRunTimeVal : Option Int)
    (state : String) (found : List ThreadRec) : TIOutcome :=
  if !refOk varRef || jgeLenB found.length uxCurrentNumberOfTasksVal then .ok found
  else if progStatus != "stopped" then .busyRej found
  else
    match varRef with
    | none => .ok found
    | some r =>
      match env.listHead r with
      | .error _ => .readRej found
      | .ok obj =>
        let threadCount := parseIntD obj.uxNumberOfItems
        if jle threadCount 0 || !refOk obj.xListEnd then .ok found
        else
          match env.nodeObj obj.xListEnd with
          | .error _ => .hang found
          | .ok listEndObj =>
            let fuel := match threadCount with | some v => v.toNat | none => 0
            walkNodes env curThreadAddr ulTotalRunTimeVal state fuel listEndObj.pxPrevious found

/-- The instance fields of `RTOSFreeRTOS` that `refresh`/`getHTML` read or
write. -/
structure RState where
  progStatus : String
  status : String
  stale : Bool
  uxCurrentNumberOfTasksVal : Option Int
  foundThreads : List ThreadRec
  finalThreads : List ThreadRec
  pxReadyTasksListsItems : Option (List (Option Nat))
  ulTotalRunTimeVal : Option Int
  curThreadAddr : Option Int
  hasULTotalRunTime : Bool
  xDelayedTaskList1 : Option Nat
  xDelayedTaskList2 : Option Nat
  xPendingReadyList : Option Nat
  xSuspendedTaskList : Option Nat
  xTasksWaitingTermination : Option Nat
  timeInfo : String
  lastValidHtml : String

def maxThreads : Int := 1024

def maxSafeInteger : Int := 9007199254740991

/-- The exceptions a `refresh` pass can catch and log (`console.error`). -/
inductive RErr
  | valueRej      -- a getValue / getVarChildren promise rejection at an await
  | listRej       -- a getThreadInfo rejection from the list-head read
  | busyCaught    -- the Error('Busy') rejection from getThreadInfo
  | sortTypeError -- TypeError: reading ['ID'] of this.foundThreads[0] on an empty array
deriving Repr, DecidableEq

/-- A `refresh` pass either resolves (with the exception it caught and
logged, if any) or hangs on a never-settling `getThreadInfo` promise. -/
inductive RefreshOut
  | resolved (st : RState) (err : Option RErr)
  | hung (st : RState)

/-- Aggregation of one `getThreadInfo` call per list, in source order. -/
inductive ListsOut
  | ok (found : List ThreadRec)
  | caught (found : List ThreadRec) (e : RErr)
  | hung (found : List ThreadRec)
deriving Repr, DecidableEq

def runLists (env : DebugEnv) (uxVal curAddr ulTotal : Option Int) :
    List (Option Nat × String) → Nat → List ThreadRec → ListsOut
  | [], _, found => .ok found
  | (h, lbl) :: rest, i, found =>
    match getThreadInfo env (env.progStatusAtList i) h uxVal curAddr ulTotal lbl found with
    | .ok f => runLists env uxVal curAddr ulTotal rest (i + 1) f
    | .busyRej f => .caught f .busyCaught
    | .readRej f => .caught f .listRej
    | .hang f => .hung f

/-- Lines 125-137 and 139-146 of `refresh`, applied to the traversal
outcome: publish the sorted snapshot (clearing staleness, appending the
elapsed time) on full success, or catch/hang otherwise. -/
def refreshPublish (env : DebugEnv) (st3 : RState) (lo : ListsOut) : RefreshOut :=
  match lo with
  | .hung f => .hung { st3 with foundThreads := f }
  | .caught f e => .resolved { st3 with foundThreads := f } (some e)
  | .ok f =>
    match sortFoundThreads f with
    | .error _ => .resolved { st3 with foundThreads := f } (some .sortTypeError)
    | .ok sorted =>
      .resolved { st3 with
                  foundThreads := sorted, finalThreads := sorted, stale := false
                  timeInfo := st3.timeInfo ++ " in " ++ toString env.deltaMs ++ " ms" } none

/-- Lines 113-124: read `pxCurrentTCB`, then traverse the six list
categories in source order. -/
def refreshCur (env : DebugEnv) (st2 : RState) (uxVal : Option Int)
    (items : List (Option Nat)) : RefreshOut :=
  match env.curTCBStr with
  | .error _ => .resolved st2 (some .valueRej)
  | .ok cur =>
    let st3 := { st2 with curThreadAddr := parseIntD cur }
    let lists := items.map (fun h => (h, "READY")) ++
      [(st3.xDelayedTaskList1, "BLOCKED"), (st3.xDelayedTaskList2, "BLOCKED"),
       (st3.xPendingReadyList, "BLOCKED"), (st3.xSuspendedTaskList, "SUSPENDED"),
       (st3.xTasksWaitingTermination, "TERMINATED")]
    refreshPublish env st3 (runLists env uxVal st3.curThreadAddr st3.ulTotalRunTimeVal lists 0 [])

/-- Lines 109-112: re-read `ulTotalRunTime` when its handle resolved. -/
def refreshTraverse (env : DebugEnv) (st1 : RState) (uxVal : Option Int)
    (items : List (Option Nat)) : RefreshOut :=
  if st1.hasULTotalRunTime then
    match env.totalRunTimeStr with
    | .error _ => .resolved st1 (some .valueRej)
    | .ok v => refreshCur env { st1 with ulTotalRunTimeVal := parseIntD v } uxVal items
  else refreshCur env st1 uxVal items

/-- The valid-count arm of `refresh` (lines 101-130): resolve the ready-list
buckets once per session (cached thereafter), then read the runtime total
and current TCB, traverse the six list categories, sort, publish. -/
def refreshValid (env : DebugEnv) (st0 : RState) (uxVal : Option Int) : RefreshOut :=
  match st0.pxReadyTasksListsItems with
  | some items => refreshTraverse env st0 uxVal items
  | none =>
    match env.readyListsChildren with
    | .error _ => .resolved st0 (some .valueRej)
    | .ok items =>
      refreshTraverse env { st0 with pxReadyTasksListsItems := some items } uxVal items

/-- `refresh(frameId)` (lines 84-148).  Resolves immediately when the target
is not stopped; otherwise marks the pass stale, resets the count and the
scratch record list, reads the declared count, and either runs the
valid-count arm or publishes an empty snapshot. -/
def refresh (env : DebugEnv) (st0 : RState) : RefreshOut :=
  if st0.progStatus != "stopped" then .resolved st0 none
  else
    let st1 := { st0 with
                 stale := true, timeInfo := env.nowISO
                 uxCurrentNumberOfTasksVal := some maxSafeInteger, foundThreads := [] }
    match env.numTasksStr with
    | .error _ => .resolved st1 (some .valueRej)
    | .ok str =>
      let uxVal := if truthyS str then parseIntD str else some maxSafeInteger
      let st2 := { st1 with uxCurrentNumberOfTasksVal := uxVal }
      if jgt uxVal 0 && jle uxVal maxThreads then refreshValid env st2 uxVal
      else
        .resolved { st2 with
                    finalThreads := [], stale := false
                    timeInfo := st2.timeInfo ++ " in " ++ toString env.deltaMs ++ " ms" } none

def rtosName : String := "FreeRTOS"

/-- A JS value as seen by the rendering loops: a string, `undefined`, or an
object (only the `stackInfo` field, which the `typeof` check skips). -/
inductive JVal
  | str (s : String)
  | undefVal
  | obj
deriving Repr, DecidableEq

def optV : Option String → JVal
  | some s => .str s
  | none => .undefVal

/-- Property lookup `th[key]` on a record. -/
def recVal (t : ThreadRec) : String → JVal
  | "ID" => optV t.id
  | "Address" => .str t.address
  | "Task Name" => .str t.taskName
  | "Status" => .str t.status
  | "Prio" => .str t.prio
  | "Stack Beg" => .str t.stackBeg
  | "Stack Top" => .str t.stackTop
  | "Stack Used" => .str t.stackUsed
  | "Stack End" => .str t.stackEnd
  | "Stack Size" => optV t.stackSizeF
  | "Stack Peak" => optV t.stackPeakF
  | "Stack Free" => optV t.stackFreeF
  | "Runtime" => optV t.runtime
  | "stackInfo" => .obj
  | _ => .undefVal

/-- `Object.keys` of a record: insertion order of the object literal
(lines 179-189), minus a deleted `ID`, plus the conditionally added stack
and runtime fields (lines 196-207). -/
def recKeys (t : ThreadRec) : List String :=
  (match t.id with | some _ => ["ID"] | none => []) ++
  ["Address", "Task Name", "Status", "Prio", "Stack Beg", "Stack Top", "Stack Used",
   "stackInfo", "Stack End"] ++
  (match t.stackSizeF with | some _ => ["Stack Size", "Stack Peak", "Stack Free"] | none => []) ++
  (match t.runtime with | some _ => ["Runtime"] | none => [])

/-- String coercion in the template literals (`${txt}`). -/
def cellText : JVal → String
  | .str s => s
  | .undefVal => "undefined"
  | .obj => "[object Object]"

/-- `makeOneWord`: lower-case and replace whitespace runs (`/\s+/g`) by `-`. -/
def makeOneWordAux : Bool → List Char → List Char
  | _, [] => []
  | prev, c :: cs =>
    if c.isWhitespace then
      if prev then makeOneWordAux true cs else '-' :: makeOneWordAux true cs
    else c :: makeOneWordAux false cs

def makeOneWord (s : String) : String :=
  String.mk (makeOneWordAux false s.toLower.toList)

/-- The `fmt` grid-template accumulation of `getHTML` (lines 297-310). -/
def fmtOf (keys : List String) : String :=
  keys.foldl (fun acc k =>
    let tmp : Nat :=
      if k == "ID" then 1
      else if k == "Task Name" then 6
      else if k == "Prio" then 2
      else if k == "Runtime" then 2
      else 4
    acc ++ s!"{tmp}fr ") ""

/-- The header row built on the first loop iteration (lines 315-327). -/
def headerRow (keys : List String) (t : ThreadRec) : String :=
  let cells := keys.foldl (fun (p : String × Nat) key =>
    match recVal t key with
    | .obj => p
    | _ =>
      let col := toString p.2
      (p.1 ++ "    <vscode-data-grid-cell class=\"" ++ rtosName ++
        "-header-cell threads-header-cell\" " ++ "cell-type=\"columnheader\" grid-column=\"" ++
        col ++ "\">" ++ key ++ "</vscode-data-grid-cell>\n", p.2 + 1))
    ("", 1)
  "  <vscode-data-grid-row row-type=\"header\" class=\"" ++ rtosName ++
    "-header-row threads-header-row\">\n" ++ cells.1 ++ "  </vscode-data-grid-row>\n"

/-- One data row (lines 330-345). -/
def dataRow (keys : List String) (t : ThreadRec) : String :=
  let cells := keys.foldl (fun (p : String × Nat) key =>
    match recVal t key with
    | .obj => p
    | v =>
      let base := cellText v
      let special := if key == "Status" && base == "RUNNING" then "running" else ""
      let txt :=
        if key == "Stack Beg" then
          "<vscode-link class=\"threads-link-" ++ makeOneWord key ++ "\" href=\"#\">" ++
            base ++ "</vscode-link>"
        else base
      let cls := "class=\"" ++ rtosName ++ "-cell threads-cell threads-cell-" ++
        makeOneWord key ++ " " ++ special ++ "\""
      let col := toString p.2
      (p.1 ++ "    <vscode-data-grid-cell " ++ cls ++ " grid-column=\"" ++ col ++ "\">" ++
        txt ++ "</vscode-data-grid-cell>\n", p.2 + 1))
    ("", 1)
  "  <vscode-data-grid-row class=\"" ++ rtosName ++ "-row threads-row\">\n" ++
    cells.1 ++ "  </vscode-data-grid-row>\n"

/-- The `for (const th of this.finalThreads)` loop: the header is emitted
once, before the first row. -/
def tableRows (keys : List String) : List ThreadRec → String
  | [] => ""
  | t0 :: rest => headerRow keys t0 ++ dataRow keys t0 ++
      (rest.foldl (fun acc t => acc ++ dataRow keys t) "")

/-- Lines 296-354 of `getHTML`: the table path.  `Object.keys` of
`this.finalThreads[0]` throws a TypeError when the list is empty. -/
def htmlTable (st : RState) (warn : String) : Except Unit (String × String) :=
  match st.finalThreads with
  | [] => .error ()
  | t0 :: _ =>
    let keys := recKeys t0
    let fmt := fmtOf keys
    let table := "<vscode-data-grid class=\"" ++ rtosName ++
      "-grid threads-grid\" grid-template-columns=\"" ++ fmt ++ "\">\n" ++
      tableRows keys st.finalThreads
    let ret := warn ++ table ++ "</vscode-data-grid>\n" ++
      (if st.timeInfo != "" then "<p>Data collected at " ++ st.timeInfo ++ "</p>\n" else "")
    .ok (ret, ret)

/-- `getHTML()` (lines 273-355).  The result pairs the returned HTML with
the value of `this.lastValidHtml` after the call. -/
def getHTML (st : RState) : Except Unit (String × String) :=
  if st.status == "none" then
    .ok ("<p>RTOS not yet fully initialized. Will occur next time program pauses</p>\n",
      st.lastValidHtml)
  else if st.stale then
    let ux := st.uxCurrentNumberOfTasksVal
    let pair : String × String :=
      if jeqI ux (some maxSafeInteger) then
        ("Count not read \"uxCurrentNumberOfTasks\". Perhaps program is busy or did not stop long enough",
          "")
      else if jgt ux maxThreads then
        ("FreeRTOS variable uxCurrentNumberOfTasks = " ++ jnumToString ux ++ " seems invalid", "")
      else if st.lastValidHtml != "" then
        (" Following info from last query may be stale.", st.lastValidHtml)
      else ("", st.lastValidHtml)
    .ok ("<p>Unable to collect full RTOS information. " ++ pair.1 ++ "</p>\n" ++ pair.2,
      st.lastValidHtml)
  else
    let ux := st.uxCurrentNumberOfTasksVal
    let len := st.finalThreads.length
    if !jeqI ux (some maxSafeInteger) && !jeqI (some (len : Int)) ux then
      htmlTable st ("<p>Expecting " ++ jnumToString ux ++ " threads, found " ++ toString len ++
        ". Thread data may be unreliable<p>\n")
    else if len == 0 then
      .ok ("<p>No " ++ rtosName ++
        " threads detected, perhaps RTOS not yet initialized or tasks yet to be created!</p>\n",
        st.lastValidHtml)
    else htmlTable st ""

/-! ### Helper definitions for the theorems -/

/-- The numeric ID key of a record, defined when `parseInt` succeeds on its
ID; used only to state sortedness of the published snapshot. -/
def idNum (t : ThreadRec) : Int := (parseIntD t.id).getD 0

/-- The numeric address key (`parseInt` of the `0x...` address string). -/
def addrNum (t : ThreadRec) : Int := (parseIntStr t.address).getD 0

def idLeKey (a b : ThreadRec) : Bool := decide (idNum a ≤ idNum b)

def addrLeKey (a b : ThreadRec) : Bool := decide (addrNum a ≤ addrNum b)

/-- The `foundThreads` content carried by any traversal outcome. -/
def tiFound : TIOutcome → List ThreadRec
  | .ok f => f
  | .busyRej f => f
  | .readRej f => f
  | .hang f => f

/-! ### Concrete instances used by witnesses and counterexamples -/

def tcbBounded : TcbFields :=
  { pxStack := some "0x2000", pxTopOfStack := some "0x1800", pxEndOfStack := some "0x1000" }

def tcbNoEnd : TcbFields :=
  { pxStack := some "0x2000", pxTopOfStack := some "0x1800" }

def preC8 : List Nat := List.replicate 3995 0 ++ [7]

def bsC8 : List Nat := (preC8 ++ List.replicate 100 0xA5).reverse

def demoStack : RTOSStackInfo :=
  { stackStart := some 0, stackTopCurrent := some 0, stackCurUsed := some 0 }

/-- A collected record that carries no ID (TCB address `0x50`). -/
def recNoId : ThreadRec :=
  { id := none, address := "0x50", taskName := "B", status := "READY", prio := "1"
    stackBeg := "0x0", stackTop := "0x0", stackUsed := "0", stackEnd := "&lt;Unknown&gt;"
    stackSizeF := none, stackPeakF := none, stackFreeF := none, runtime := none
    stackInfo := demoStack }

/-- A collected record with ID `"2"` and the larger TCB address `0x100`. -/
def recId2 : ThreadRec := { recNoId with id := some "2", address := "0x100", taskName := "A" }

/-- A collected record with ID `"1"` and TCB address `0x200`. -/
def recId1 : ThreadRec := { recNoId with id := some "1", address := "0x200", taskName := "C" }

/-- An environment whose every read fails, with the target running. -/
def envTriv : DebugEnv :=
  { numTasksStr := .ok none, readyListsChildren := .ok [], totalRunTimeStr := .ok none
    curTCBStr := .ok none, listHead := fun _ => .error (), nodeObj := fun _ => .error ()
    tcb := fun _ => .error (), exprVal := fun _ => .error (), readMem := fun _ _ => .error ()
    progStatusAtList := fun _ => "running" }

/-- An environment whose list nodes all resolve to the same TCB without a
static stack bound, but whose raw memory reads fail. -/
def envC3 : DebugEnv :=
  { envTriv with
    nodeObj := fun _ => .ok { pvOwner := some "256", pxPrevious := some 1 }
    tcb := fun _ => .ok tcbNoEnd
    exprVal := fun _ => .ok "\"T\""
    progStatusAtList := fun _ => "stopped" }

/-- An environment describing a *cyclic* corrupted list: every node's
backward link points to node `1` (a self-loop that never reaches the
sentinel again), and all reads succeed. -/
def envC9 : DebugEnv :=
  { envC3 with
    tcb := fun _ => .ok tcbNoEnd
    readMem := fun _ _ => .ok [] }

def siC9 : RTOSStackInfo :=
  { stackStart := some 8192, stackTopCurrent := some 6144, stackCurUsed := some 2048 }

def recC9 : ThreadRec := buildThreadRec tcbNoEnd "T" siC9 (some 256) none none "READY"

/-- A baseline instance state: detection done, target halted, no prior
snapshot. -/
def stBase : RState :=
  { progStatus := "stopped", status := "initialized", stale := false
    uxCurrentNumberOfTasksVal := some 3, foundThreads := [], finalThreads := []
    pxReadyTasksListsItems := none, ulTotalRunTimeVal := none, curThreadAddr := none
    hasULTotalRunTime := false
    xDelayedTaskList1 := none, xDelayedTaskList2 := none, xPendingReadyList := none
    xSuspendedTaskList := none, xTasksWaitingTermination := none
    timeInfo := "", lastValidHtml := "" }

/-- A state holding a previously published one-record snapshot. -/
def stPrior : RState := { stBase with finalThreads := [recId1] }

/-- An environment whose count read rejects. -/
def envC6 : DebugEnv := { envTriv with numTasksStr := .error () }

/-- The state after a pass of `envC6` over `stPrior`. -/
def stC6after : RState :=
  { stPrior with
    stale := true, timeInfo := ""
    uxCurrentNumberOfTasksVal := some maxSafeInteger, foundThreads := [] }

/-- An environment with a valid declared count of 5 whose six list
traversals all find nothing (every list handle is absent). -/
def envC10 : DebugEnv :=
  { envTriv with
    numTasksStr := .ok (some "5"), curTCBStr := .ok (some "0x1234")
    progStatusAtList := fun _ => "stopped" }

/-- `stPrior` with the ready-bucket handle cache resolved to an empty set. -/
def stC10 : RState := { stPrior with pxReadyTasksListsItems := some [] }

/-- An environment whose declared count reads the implausible value 2000. -/
def envC1 : DebugEnv := { envTriv with numTasksStr := .ok (some "2000") }

/-! ### Sorting infrastructure lemmas -/

theorem mem_insertOrd {le : α → α → Bool} {x a : α} {l : List α} :
    a ∈ insertOrd le x l ↔ a = x ∨ a ∈ l := by
  induction l with
  | nil => simp [insertOrd]
  | cons b t ih =>
    simp only [insertOrd]
    split
    · simp [List.mem_cons]
    · simp [List.mem_cons, ih]
      tauto

theorem perm_insertOrd (le : α → α → Bool) (x : α) (l : List α) :
    List.Perm (insertOrd le x l) (x :: l) := by
  induction l with
  | nil => simp [insertOrd]
  | cons b t ih =>
    simp only [insertOrd]
    split
    · exact List.Perm.refl _
    · exact (List.Perm.cons b ih).trans (List.Perm.swap x b t)

theorem perm_insSort (le : α → α → Bool) (l : List α) : List.Perm (insSort le l) l := by
  induction l with
  | nil => exact List.Perm.refl _
  | cons x t ih => exact (perm_insertOrd le x (insSort le t)).trans (List.Perm.cons x ih)

theorem insertOrd_congr {le le' : α → α → Bool} (x : α) (l : List α)
    (h : ∀ b ∈ l, le x b = le' x b) : insertOrd le x l = insertOrd le' x l := by
  induction l with
  | nil => rfl
  | cons b t ih =>
    simp only [insertOrd]
    rw [h b (List.mem_cons_self b t)]
    split
    · rfl
    · rw [ih (fun c hc => h c (List.mem_cons_of_mem b hc))]

theorem insSort_congr {le le' : α → α → Bool} (l : List α)
    (h : ∀ a ∈ l, ∀ b ∈ l, le a b = le' a b) : insSort le l = insSort le' l := by
  induction l with
  | nil => rfl
  | cons x t ih =>
    simp only [insSort]
    rw [ih (fun a ha b hb =>
      h a (List.mem_cons_of_mem x ha) b (List.mem_cons_of_mem x hb))]
    exact insertOrd_congr x (insSort le' t) (fun b hb =>
      h x (List.mem_cons_self x t)
        b (List.mem_cons_of_mem x ((perm_insSort le' t).mem_iff.mp hb)))

theorem pairwise_insertOrd {le : α → α → Bool}
    (htot : ∀ a b, le a b = true ∨ le b a = true)
    (htr : ∀ a b c, le a b = true → le b c = true → le a c = true)
    (x : α) (l : List α) (hl : l.Pairwise (fun a b => le a b = true)) :
    (insertOrd le x l).Pairwise (fun a b => le a b = true) := by
  induction l with
  | nil => simp [insertOrd]
  | cons b t ih =>
    rcases List.pairwise_cons.mp hl with ⟨hb, ht⟩
    simp only [insertOrd]
    split
    case isTrue hxb =>
      refine List.pairwise_cons.mpr ⟨?_, hl⟩
      intro c hc
      rcases List.mem_cons.mp hc with h | hc
      · rw [h]
        exact hxb
      · exact htr x b c hxb (hb c hc)
    case isFalse hxb =>
      refine List.pairwise_cons.mpr ⟨?_, ih ht⟩
      intro c hc
      rcases mem_insertOrd.mp hc with h | hc
      · rcases htot x b with h' | h'
        · exact absurd h' hxb
        · rw [h]
          exact h'
      · exact hb c hc

theorem pairwise_insSort {le : α → α → Bool}
    (htot : ∀ a b, le a b = true ∨ le b a = true)
    (htr : ∀ a b c, le a b = true → le b c = true → le a c = true)
    (l : List α) : (insSort le l).Pairwise (fun a b => le a b = true) := by
  induction l with
  | nil => simp [insSort]
  | cons x t ih => exact pairwise_insertOrd htot htr x _ ih

theorem idLe_eq_key {a b : ThreadRec}
    (ha : (parseIntD a.id).isSome) (hb : (parseIntD b.id).isSome) :
    idLe a b = idLeKey a b := by
  rcases Option.isSome_iff_exists.mp ha with ⟨x, hx⟩
  rcases Option.isSome_iff_exists.mp hb with ⟨y, hy⟩
  simp [idLe, idLeKey, idNum, jcmpLe, jsub, hx, hy, sub_nonpos]

theorem addrLe_eq_key {a b : ThreadRec}
    (ha : (parseIntStr a.address).isSome) (hb : (parseIntStr b.address).isSome) :
    addrLe a b = addrLeKey a b := by
  rcases Option.isSome_iff_exists.mp ha with ⟨x, hx⟩
  rcases Option.isSome_iff_exists.mp hb with ⟨y, hy⟩
  simp [addrLe, addrLeKey, addrNum, jcmpLe, jsub, hx, hy, sub_nonpos]

theorem idLeKey_total : ∀ a b : ThreadRec, idLeKey a b = true ∨ idLeKey b a = true := by
  intro a b
  simp only [idLeKey, decide_eq_true_eq]
  exact Int.le_total (idNum a) (idNum b)

theorem idLeKey_trans : ∀ a b c : ThreadRec,
    idLeKey a b = true → idLeKey b c = true → idLeKey a c = true := by
  intro a b c hab hbc
  simp only [idLeKey, decide_eq_true_eq] at *
  exact le_trans hab hbc

theorem addrLeKey_total : ∀ a b : ThreadRec, addrLeKey a b = true ∨ addrLeKey b a = true := by
  intro a b
  simp only [addrLeKey, decide_eq_true_eq]
  exact Int.le_total (addrNum a) (addrNum b)

theorem addrLeKey_trans : ∀ a b c : ThreadRec,
    addrLeKey a b = true → addrLeKey b c = true → addrLeKey a c = true := by
  intro a b c hab hbc
  simp only [addrLeKey, decide_eq_true_eq] at *
  exact le_trans hab hbc

/-! ### Watermark-scan lemmas -/

theorem takeWhile_replicate_append (w : Nat) (k : Nat) (l : List Nat) :
    (List.replicate k w ++ l).takeWhile (fun b => b == w) =
      List.replicate k w ++ l.takeWhile (fun b => b == w) := by
  induction k with
  | zero => simp
  | succ n ih => simp [List.replicate_succ, List.takeWhile_cons, ih]

theorem takeWhile_head_ne (w : Nat) (l : List Nat) (hl : ∀ x, l.head? = some x → x ≠ w) :
    l.takeWhile (fun b => b == w) = [] := by
  cases l with
  | nil => rfl
  | cons a t =>
    have ha : a ≠ w := hl a rfl
    have hb : (a == w) = false := beq_eq_false_iff_ne.mpr ha
    simp [List.takeWhile_cons, hb]

/-- The while-loop of lines 249-256: on a region that is `pre` followed by
`k` fill bytes, with `pre` not ending in a fill byte, the scan stops at
`pre.length`. -/
theorem watermarkTop_spec (w : Nat) (pre : List Nat) (k : Nat)
    (hlast : ∀ x, pre.getLast? = some x → x ≠ w) :
    watermarkTop (pre ++ List.replicate k w) w = pre.length := by
  unfold watermarkTop
  rw [List.reverse_append, List.reverse_replicate, takeWhile_replicate_append,
    takeWhile_head_ne w pre.reverse (fun x hx => hlast x (by rwa [List.head?_reverse] at hx))]
  simp

/-! ### C7: static-bound stack arithmetic -/

/-- C7: for a TCB exposing a static end-of-stack bound, `getStackInfo`
computes `stackCurUsed = |stackStart - stackTopCurrent|`,
`stackSize = |stackStart - stackEnd|` and
`stackFree = stackSize - stackCurUsed`, whatever the raw memory read does. -/
theorem stack_static_bound_arithmetic (thInfo : TcbFields)
    (readMem : Option Int → Option Int → Except Unit (List Nat)) (w : Nat) (a t e : Int)
    (ha : parseIntD thInfo.pxStack = some a)
    (ht : parseIntD thInfo.pxTopOfStack = some t)
    (hE : truthyS thInfo.pxEndOfStack = true)
    (he : parseIntD thInfo.pxEndOfStack = some e) :
    ∃ si, getStackInfo thInfo w readMem = .ok si ∧
      si.stackCurUsed = some |a - t| ∧
      si.stackSize = some |a - e| ∧
      si.stackFree = some (|a - e| - |a - t|) := by
  unfold getStackInfo
  rw [ha, ht, he, hE]
  simp only [jsub, jabs, if_true]
  cases readMem (if (if jlt (some (a - e)) 0 then (1 : Int) else -1) > 0 then some a else some e)
      (some |a - e|) with
  | ok data => exact ⟨_, rfl, rfl, rfl, rfl⟩
  | error err => exact ⟨_, rfl, rfl, rfl, rfl⟩

theorem stack_static_bound_arithmetic_witness :
    ∃ si, getStackInfo tcbBounded 0xA5 (fun _ _ => .error ()) = .ok si ∧
      si.stackCurUsed = some 2048 ∧ si.stackSize = some 4096 ∧ si.stackFree = some 2048 := by
  obtain ⟨si, h0, h1, h2, h3⟩ := stack_static_bound_arithmetic tcbBounded
    (fun _ _ => .error ()) 0xA5 8192 6144 4096 (by decide) (by decide) (by decide) (by decide)
  refine ⟨si, h0, ?_, ?_, ?_⟩
  · rw [h1]; decide
  · rw [h2]; decide
  · rw [h3]; decide

/-! ### C8: watermark scan of the normalized stack region -/

/-- C8: `getStackInfo` reads `|stackStart - stackEnd|` bytes starting at
the lower-addressed of the two bounds and reverses the buffer exactly when
`stackStart - stackEnd ≥ 0` (growth-direction normalization, so index 0 is
the used end); `stackPeakUsed` is the region length minus the count of
trailing fill bytes of the normalized buffer. -/
theorem watermark_scan_peak (thInfo : TcbFields)
    (readMem : Option Int → Option Int → Except Unit (List Nat))
    (w : Nat) (a t e : Int) (bs pre : List Nat) (k : Nat)
    (ha : parseIntD thInfo.pxStack = some a)
    (ht : parseIntD thInfo.pxTopOfStack = some t)
    (hE : truthyS thInfo.pxEndOfStack = true)
    (he : parseIntD thInfo.pxEndOfStack = some e)
    (hread : readMem (if a - e < 0 then some a else some e) (some |a - e|) = .ok bs)
    (hsplit : (if a - e < 0 then bs else bs.reverse) = pre ++ List.replicate k w)
    (hlast : ∀ x, pre.getLast? = some x → x ≠ w) :
    ∃ si, getStackInfo thInfo w readMem = .ok si ∧
      si.stackPeakUsed = some pre.length ∧
      si.bytes = some (pre ++ List.replicate k w) ∧
      pre.length = (pre ++ List.replicate k w).length - k := by
  unfold getStackInfo
  rw [ha, ht, he, hE]
  by_cases hgrow : a - e < 0
  · have hjlt : jlt (some (a - e)) 0 = true := by
      simp only [jlt, decide_eq_true_eq]
      omega
    rw [if_pos hgrow] at hread hsplit
    simp only [jsub, jabs, if_true, hjlt]
    norm_num
    rw [hread]
    refine ⟨_, rfl, ?_, ?_⟩
    · show some (watermarkTop bs w) = some pre.length
      rw [hsplit, watermarkTop_spec w pre k hlast]
    · show some bs = some (pre ++ List.replicate k w)
      rw [hsplit]
  · have hjlt : jlt (some (a - e)) 0 = false := by
      simp only [jlt, decide_eq_false_iff_not]
      omega
    rw [if_neg hgrow] at hread hsplit
    simp only [jsub, jabs, if_true, hjlt]
    norm_num
    rw [hread]
    refine ⟨_, rfl, ?_, ?_⟩
    · show some (watermarkTop bs.reverse w) = some pre.length
      rw [hsplit, watermarkTop_spec w pre k hlast]
    · show some bs.reverse = some (pre ++ List.replicate k w)
      rw [hsplit]

theorem watermark_scan_peak_witness :
    ∃ si, getStackInfo tcbBounded 0xA5 (fun _ _ => .ok bsC8) = .ok si ∧
      si.stackPeakUsed = some 3996 := by
  obtain ⟨si, h0, h1, _, _⟩ := watermark_scan_peak tcbBounded (fun _ _ => .ok bsC8)
    0xA5 8192 6144 4096 bsC8 preC8 100 (by decide) (by decide) (by decide) (by decide)
    rfl
    (by
      rw [if_neg (by norm_num)]
      rw [bsC8, List.reverse_reverse])
    (by
      intro x hx
      rw [preC8, List.getLast?_concat] at hx
      cases hx
      decide)
  refine ⟨si, h0, ?_⟩
  rw [h1, preC8]
  rw [List.length_append, List.length_replicate]
  norm_num

/-- Evaluation helper for `toFixed2` on non-negative rationals: kernel
reduction gets stuck on `Rat` order instances, so the floor is supplied by
`norm_num` at call sites. -/
theorem toFixed2_nonneg (q : ℚ) (n : Int) (h0 : 0 ≤ q) (hn : ⌊q * 100 + 1 / 2⌋ = n) :
    toFixed2 q = fixed2OfNat n.toNat := by
  unfold toFixed2
  rw [if_neg (not_lt.mpr h0), hn]

/-! ### C3: stack memory-read failure handling -/

/-- C3 counterexample: for a TCB *without* a static end-of-stack bound, a
raw memory-read failure is not caught: `getStackInfo` propagates it, and in
`getThreadInfo`'s loop that failure aborts the record and the remainder of
the list traversal (outcome `hang`, no record built, no further node
visited), refuting the claim's "with or without a static end-of-stack
bound ... never aborts the record or the remainder of the list traversal". -/
theorem stack_read_failure_counterexample :
    getStackInfo tcbNoEnd 0xA5 (fun _ _ => .error ()) = .error () ∧
    walkNodes envC3 none none "READY" 2 (some 1) [] = .hang [] := by
  constructor
  · rfl
  · rfl

/-- C3 amended: when a static end-of-stack bound is present, a memory-read
failure is caught and degrades only `stackPeakUsed` (rendered as
`'Read mem fail'` on the record); when no bound is present, the read is
unguarded and its failure propagates out of `getStackInfo`. -/
theorem stack_read_failure_amended (thInfo : TcbFields)
    (readMem : Option Int → Option Int → Except Unit (List Nat)) (w : Nat)
    (hfail : ∀ x y, readMem x y = .error ()) :
    (truthyS thInfo.pxEndOfStack = true →
      ∃ si, getStackInfo thInfo w readMem = .ok si ∧ si.stackPeakUsed = none ∧
        si.bytes = none ∧
        si.stackCurUsed = jabs (jsub (parseIntD thInfo.pxStack) (parseIntD thInfo.pxTopOfStack)) ∧
        (∀ nm tid cur tot state, jtruthyNum si.stackSize = true →
          (buildThreadRec thInfo nm si tid cur tot state).stackPeakF = some "Read mem fail")) ∧
    (truthyS thInfo.pxEndOfStack = false →
      getStackInfo thInfo w readMem = .error ()) := by
  constructor
  · intro hE
    unfold getStackInfo
    rw [hE]
    simp only [if_true, hfail]
    refine ⟨_, rfl, rfl, rfl, rfl, ?_⟩
    intro nm tid cur tot state hsz
    unfold buildThreadRec
    rw [hsz]
    simp
  · intro hE
    unfold getStackInfo
    rw [hE]
    simp only [Bool.false_eq_true, if_false, hfail]

theorem stack_read_failure_amended_witness :
    (∃ si, getStackInfo tcbBounded 0xA5 (fun _ _ => .error ()) = .ok si ∧
      si.stackPeakUsed = none ∧
      (buildThreadRec tcbBounded "T" si none none none "READY").stackPeakF =
        some "Read mem fail") ∧
    getStackInfo tcbNoEnd 0xA5 (fun _ _ => .error ()) = .error () := by
  constructor
  · obtain ⟨si, h0, h1, _, _, h2⟩ :=
      (stack_read_failure_amended tcbBounded (fun _ _ => .error ()) 0xA5
        (fun _ _ => rfl)).1 (by decide)
    have hval : getStackInfo tcbBounded 0xA5 (fun _ _ => .error ()) =
        .ok { stackStart := some 8192, stackTopCurrent := some 6144
              stackCurUsed := some 2048, stackEnd := some 4096
              stackSize := some 4096, stackFree := some 2048 } := by rfl
    have hsi := Except.ok.inj (h0.symm.trans hval)
    refine ⟨si, h0, h1, h2 "T" none none none "READY" ?_⟩
    rw [hsi]
    decide
  · exact (stack_read_failure_amended tcbNoEnd (fun _ _ => .error ()) 0xA5
      (fun _ _ => rfl)).2 (by decide)

/-! ### C4: runtime-percentage field -/

/-- C4 counterexample: a per-task runtime counter that reads `"0"` (zero,
but a truthy string) together with a non-zero total produces a *present*
Runtime field `"00.00%"`, refuting the claim that a zero per-task counter
yields no Runtime field. -/
theorem runtime_zero_counter_counterexample :
    runtimeField (some "0") (some 1000) = some "00.00%" ∧
    (buildThreadRec { ulRunTimeCounter := some "0" } "T" demoStack none none
      (some 1000) "READY").runtime = some "00.00%" := by
  have hto : toFixed2 (((0 : Int) : ℚ) / (((1000 : Int)) : ℚ) * 100) = "0.00" := by
    rw [toFixed2_nonneg _ 0 (by norm_num) (by rw [Int.floor_eq_iff] <;> norm_num)]
    decide
  have hA : runtimeField (some "0") (some 1000) =
      some (padStart 5 '0' (toFixed2 (((0 : Int) : ℚ) / (((1000 : Int)) : ℚ) * 100)) ++ "%") :=
    rfl
  have hB : runtimeField (some "0") (some 1000) = some "00.00%" := by
    rw [hA, hto]
    decide
  exact ⟨hB, hB⟩

/-- C4 amended: the Runtime field is present iff the per-task counter value
is an available, non-empty string (`"0"` included) and the total counter is
a non-zero number; when present with a parseable counter it equals
`((counter / total) * 100).toFixed(2)` padded to width 5 plus `%`. -/
theorem runtime_field_amended (c : Option String) (total : Option Int) :
    ((runtimeField c total).isSome ↔ (truthyS c = true ∧ jtruthyNum total = true)) ∧
    (∀ cv tv : Int, parseIntD c = some cv → total = some tv → truthyS c = true → tv ≠ 0 →
      runtimeField c total =
        some (padStart 5 '0' (toFixed2 ((cv : ℚ) / (tv : ℚ) * 100)) ++ "%")) := by
  constructor
  · unfold runtimeField
    by_cases h1 : truthyS c = true
    · by_cases h2 : jtruthyNum total = true
      · simp [h1, h2]
      · simp [h1, h2]
    · simp [h1]
  · intro cv tv hcv htv h1 h2
    unfold runtimeField
    rw [hcv, htv, h1]
    have h3 : jtruthyNum (some tv) = true := by
      simp [jtruthyNum, h2]
    rw [h3]
    simp

theorem runtime_field_amended_witness :
    runtimeField (some "250") (some 1000) = some "25.00%" := by
  have h := (runtime_field_amended (some "250") (some 1000)).2 250 1000
    (by decide) rfl (by decide) (by decide)
  rw [h]
  rw [toFixed2_nonneg _ 2500 (by norm_num) (by rw [Int.floor_eq_iff] <;> norm_num)]
  decide

/-! ### C5: the Busy guard of getThreadInfo -/

/-- C5 counterexample: with the target running, an invocation with an
absent list handle — or one whose capacity is already exhausted — resolves
as a no-op instead of failing with Busy, because the no-op guard precedes
the Busy guard. -/
theorem busy_guard_counterexample :
    getThreadInfo envTriv "running" none (some 5) none none "READY" [] = .ok [] ∧
    getThreadInfo envTriv "running" (some 7) (some 1) none none "READY" [recNoId] =
      .ok [recNoId] := by
  constructor
  · rfl
  · rfl

/-- C5 amended: while the target is not halted, an invocation whose list
handle is resolved and whose capacity is not exhausted fails immediately
with Busy, performs no reads (the outcome is independent of the oracle
environment), and carries the previously collected records unchanged. -/
theorem busy_guard_amended (env : DebugEnv) (progStatus : String) (varRef : Option Nat)
    (uxVal cur tot : Option Int) (state : String) (found : List ThreadRec)
    (hrun : progStatus ≠ "stopped")
    (href : refOk varRef = true)
    (hcap : jgeLenB found.length uxVal = false) :
    getThreadInfo env progStatus varRef uxVal cur tot state found = .busyRej found := by
  unfold getThreadInfo
  rw [href, hcap]
  have hb : (progStatus != "stopped") = true := bne_iff_ne.mpr hrun
  rw [hb]
  simp

theorem busy_guard_amended_witness :
    getThreadInfo envTriv "running" (some 7) (some 5) none none "READY" [] = .busyRej [] :=
  busy_guard_amended envTriv "running" (some 7) (some 5) none none "READY" []
    (by decide) (by decide) (by decide)

/-! ### C9: fixed iteration bound of the list walk -/

/-- C9: the node walk visits exactly `n` nodes when it completes, and never
accumulates more than `n` records beyond what it started with — for *every*
oracle environment, including cyclic or corrupted link structures; the walk
never consults the sentinel to decide termination. -/
theorem traversal_fixed_bound (env : DebugEnv) (cur tot : Option Int) (state : String)
    (n : Nat) (curRef : Option Nat) (found : List ThreadRec) :
    (∀ recs, walkNodes env cur tot state n curRef found = .ok recs →
      recs.length = found.length + n) ∧
    (tiFound (walkNodes env cur tot state n curRef found)).length ≤ found.length + n := by
  induction n generalizing curRef found with
  | zero =>
    constructor
    · intro recs h
      simp only [walkNodes] at h
      cases h
      simp
    · simp [walkNodes, tiFound]
  | succ n ih =>
    constructor
    · intro recs h
      simp only [walkNodes] at h
      split at h
      · simp at h
      · split at h
        · simp at h
        · split at h
          · simp at h
          · split at h
            · simp at h
            · have := (ih _ _).1 recs h
              simp only [List.length_append, List.length_singleton] at this
              omega
    · simp only [walkNodes]
      split
      · simp [tiFound]
      · split
        · simp [tiFound]
        · split
          · simp [tiFound]
          · split
            · simp [tiFound]
            · exact le_trans (ih _ _).2
                (by simp only [List.length_append, List.length_singleton]; omega)

theorem traversal_fixed_bound_witness :
    walkNodes envC9 none none "READY" 3 (some 1) [] = .ok [recC9, recC9, recC9] ∧
    [recC9, recC9, recC9].length = 0 + 3 := by
  have hw : walkNodes envC9 none none "READY" 3 (some 1) [] = .ok [recC9, recC9, recC9] := by
    rfl
  exact ⟨hw, (traversal_fixed_bound envC9 none none "READY" 3 (some 1) []).1
    [recC9, recC9, recC9] hw⟩

/-! ### C2: sort-key selection and snapshot order -/

/-- C2 counterexample: the sort-key decision reads only the first record's
ID.  With `recId2` (ID `"2"`, address `0x100`) first and `recNoId` (no ID,
address `0x50`) second, a record lacks an ID yet the pass keeps the ID
comparator and publishes `[recId2, recNoId]`, which is not in ascending
address order — the spec's rule (`specSortKey`) would pick the address
key. -/
theorem sort_first_id_counterexample :
    recNoId.id = none ∧
    sortFoundThreads [recId2, recNoId] = .ok [recId2, recNoId] ∧
    addrLe recId2 recNoId = false ∧
    chooseSortKey [recId2, recNoId] = .ok .byId ∧
    specSortKey [recId2, recNoId] = .byAddress := by
  refine ⟨rfl, by rfl, by decide, by rfl, by decide⟩

/-- C2 amended: the published records are a permutation of the collected
ones, sorted ascending by numeric ID when the *first* record carries a
truthy ID (and all IDs parse), and ascending by TCB address when the first
record lacks one (and all addresses parse). -/
theorem sort_amended (t0 : ThreadRec) (rest : List ThreadRec) :
    ∃ out, sortFoundThreads (t0 :: rest) = .ok out ∧ out.Perm (t0 :: rest) ∧
      (truthyS t0.id = true → (∀ t ∈ t0 :: rest, (parseIntD t.id).isSome) →
        out.Pairwise (fun a b => idNum a ≤ idNum b)) ∧
      (truthyS t0.id = false → (∀ t ∈ t0 :: rest, (parseIntStr t.address).isSome) →
        out.Pairwise (fun a b => addrNum a ≤ addrNum b)) := by
  by_cases h : truthyS t0.id = true
  · refine ⟨insSort idLe (t0 :: rest), ?_, perm_insSort idLe (t0 :: rest), ?_, ?_⟩
    · simp [sortFoundThreads, chooseSortKey, h]
    · intro _ hall
      rw [insSort_congr _ (fun a ha b hb => idLe_eq_key (hall a ha) (hall b hb))]
      exact (pairwise_insSort idLeKey_total idLeKey_trans (t0 :: rest)).imp
        (fun hab => of_decide_eq_true hab)
    · intro hfalse _
      rw [h] at hfalse
      cases hfalse
  · have h' : truthyS t0.id = false := by
      cases hb : truthyS t0.id
      · rfl
      · exact absurd hb h
    refine ⟨insSort addrLe (t0 :: rest), ?_, perm_insSort addrLe (t0 :: rest), ?_, ?_⟩
    · simp [sortFoundThreads, chooseSortKey, h']
    · intro htrue _
      rw [h'] at htrue
      cases htrue
    · intro _ hall
      rw [insSort_congr _ (fun a ha b hb => addrLe_eq_key (hall a ha) (hall b hb))]
      exact (pairwise_insSort addrLeKey_total addrLeKey_trans (t0 :: rest)).imp
        (fun hab => of_decide_eq_true hab)

theorem sort_amended_witness :
    ∃ out, sortFoundThreads [recId2, recId1] = .ok out ∧ out.Perm [recId2, recId1] ∧
      out.Pairwise (fun a b => idNum a ≤ idNum b) := by
  obtain ⟨out, h1, h2, h3, _⟩ := sort_amended recId2 [recId1]
  exact ⟨out, h1, h2, h3 (by decide) (by decide)⟩

/-! ### Shape lemmas for the refresh pass -/

theorem truthyS_of_parse {s : String} {v : Int} (hv : parseIntStr s = some v) :
    truthyS (some s) = true := by
  simp only [truthyS]
  cases hE : s.isEmpty
  · rfl
  · exfalso
    have hs : s = "" := (String.isEmpty_iff s).mp hE
    rw [hs] at hv
    cases hv

theorem refreshPublish_shape (env : DebugEnv) (st3 : RState) (lo : ListsOut) :
    (∃ st' e, refreshPublish env st3 lo = .resolved st' (some e) ∧
      st'.finalThreads = st3.finalThreads ∧ st'.stale = st3.stale) ∨
    (∃ st', refreshPublish env st3 lo = .hung st' ∧
      st'.finalThreads = st3.finalThreads ∧ st'.stale = st3.stale) ∨
    (∃ st' f, refreshPublish env st3 lo = .resolved st' none ∧
      sortFoundThreads f = .ok st'.finalThreads ∧
      st'.foundThreads = st'.finalThreads ∧ st'.stale = false) := by
  cases lo with
  | hung f => exact Or.inr (Or.inl ⟨_, rfl, rfl, rfl⟩)
  | caught f e => exact Or.inl ⟨_, e, rfl, rfl, rfl⟩
  | ok f =>
    cases hs : sortFoundThreads f with
    | error err =>
      refine Or.inl ⟨{ st3 with foundThreads := f }, .sortTypeError, ?_, rfl, rfl⟩
      simp only [refreshPublish, hs]
    | ok sorted =>
      refine Or.inr (Or.inr ⟨{ st3 with
          foundThreads := sorted, finalThreads := sorted, stale := false
          timeInfo := st3.timeInfo ++ " in " ++ toString env.deltaMs ++ " ms" },
        f, ?_, hs, rfl, rfl⟩)
      simp only [refreshPublish, hs]

theorem refreshCur_shape (env : DebugEnv) (st2 : RState) (uxVal : Option Int)
    (items : List (Option Nat)) :
    (∃ st' e, refreshCur env st2 uxVal items = .resolved st' (some e) ∧
      st'.finalThreads = st2.finalThreads ∧ st'.stale = st2.stale) ∨
    (∃ st', refreshCur env st2 uxVal items = .hung st' ∧
      st'.finalThreads = st2.finalThreads ∧ st'.stale = st2.stale) ∨
    (∃ st' f, refreshCur env st2 uxVal items = .resolved st' none ∧
      sortFoundThreads f = .ok st'.finalThreads ∧
      st'.foundThreads = st'.finalThreads ∧ st'.stale = false) := by
  cases hc : env.curTCBStr with
  | error err => exact Or.inl ⟨st2, .valueRej, by simp [refreshCur, hc], rfl, rfl⟩
  | ok cur =>
    have heq : refreshCur env st2 uxVal items =
        refreshPublish env { st2 with curThreadAddr := parseIntD cur }
          (runLists env uxVal (parseIntD cur) st2.ulTotalRunTimeVal
            (items.map (fun h => (h, "READY")) ++
              [(st2.xDelayedTaskList1, "BLOCKED"), (st2.xDelayedTaskList2, "BLOCKED"),
               (st2.xPendingReadyList, "BLOCKED"), (st2.xSuspendedTaskList, "SUSPENDED"),
               (st2.xTasksWaitingTermination, "TERMINATED")]) 0 []) := by
      unfold refreshCur
      rw [hc]
    rcases refreshPublish_shape env { st2 with curThreadAddr := parseIntD cur }
        (runLists env uxVal (parseIntD cur) st2.ulTotalRunTimeVal
          (items.map (fun h => (h, "READY")) ++
            [(st2.xDelayedTaskList1, "BLOCKED"), (st2.xDelayedTaskList2, "BLOCKED"),
             (st2.xPendingReadyList, "BLOCKED"), (st2.xSuspendedTaskList, "SUSPENDED"),
             (st2.xTasksWaitingTermination, "TERMINATED")]) 0 []) with
      ⟨st', e, h, hf, hs⟩ | ⟨st', h, hf, hs⟩ | ⟨st', f, h, hsort, hff, hs⟩
    · exact Or.inl ⟨st', e, heq.trans h, hf, hs⟩
    · exact Or.inr (Or.inl ⟨st', heq.trans h, hf, hs⟩)
    · exact Or.inr (Or.inr ⟨st', f, heq.trans h, hsort, hff, hs⟩)

theorem refreshTraverse_shape (env : DebugEnv) (st1 : RState) (uxVal : Option Int)
    (items : List (Option Nat)) :
    (∃ st' e, refreshTraverse env st1 uxVal items = .resolved st' (some e) ∧
      st'.finalThreads = st1.finalThreads ∧ st'.stale = st1.stale) ∨
    (∃ st', refreshTraverse env st1 uxVal items = .hung st' ∧
      st'.finalThreads = st1.finalThreads ∧ st'.stale = st1.stale) ∨
    (∃ st' f, refreshTraverse env st1 uxVal items = .resolved st' none ∧
      sortFoundThreads f = .ok st'.finalThreads ∧
      st'.foundThreads = st'.finalThreads ∧ st'.stale = false) := by
  by_cases hT : st1.hasULTotalRunTime = true
  · cases ht : env.totalRunTimeStr with
    | error err =>
      exact Or.inl ⟨st1, .valueRej, by simp [refreshTraverse, hT, ht], rfl, rfl⟩
    | ok v =>
      have heq : refreshTraverse env st1 uxVal items =
          refreshCur env { st1 with ulTotalRunTimeVal := parseIntD v } uxVal items := by
        simp [refreshTraverse, hT, ht]
      rcases refreshCur_shape env { st1 with ulTotalRunTimeVal := parseIntD v } uxVal items with
        ⟨st', e, h, hf, hs⟩ | ⟨st', h, hf, hs⟩ | ⟨st', f, h, hsort, hff, hs⟩
      · exact Or.inl ⟨st', e, heq.trans h, hf, hs⟩
      · exact Or.inr (Or.inl ⟨st', heq.trans h, hf, hs⟩)
      · exact Or.inr (Or.inr ⟨st', f, heq.trans h, hsort, hff, hs⟩)
  · have heq : refreshTraverse env st1 uxVal items = refreshCur env st1 uxVal items := by
      simp [refreshTraverse, hT]
    rcases refreshCur_shape env st1 uxVal items with
      ⟨st', e, h, hf, hs⟩ | ⟨st', h, hf, hs⟩ | ⟨st', f, h, hsort, hff, hs⟩
    · exact Or.inl ⟨st', e, heq.trans h, hf, hs⟩
    · exact Or.inr (Or.inl ⟨st', heq.trans h, hf, hs⟩)
    · exact Or.inr (Or.inr ⟨st', f, heq.trans h, hsort, hff, hs⟩)

theorem refreshValid_shape (env : DebugEnv) (st0 : RState) (uxVal : Option Int) :
    (∃ st' e, refreshValid env st0 uxVal = .resolved st' (some e) ∧
      st'.finalThreads = st0.finalThreads ∧ st'.stale = st0.stale) ∨
    (∃ st', refreshValid env st0 uxVal = .hung st' ∧
      st'.finalThreads = st0.finalThreads ∧ st'.stale = st0.stale) ∨
    (∃ st' f, refreshValid env st0 uxVal = .resolved st' none ∧
      sortFoundThreads f = .ok st'.finalThreads ∧
      st'.foundThreads = st'.finalThreads ∧ st'.stale = false) := by
  cases hpx : st0.pxReadyTasksListsItems with
  | some items =>
    have heq : refreshValid env st0 uxVal = refreshTraverse env st0 uxVal items := by
      simp [refreshValid, hpx]
    rcases refreshTraverse_shape env st0 uxVal items with
      ⟨st', e, h, hf, hs⟩ | ⟨st', h, hf, hs⟩ | ⟨st', f, h, hsort, hff, hs⟩
    · exact Or.inl ⟨st', e, heq.trans h, hf, hs⟩
    · exact Or.inr (Or.inl ⟨st', heq.trans h, hf, hs⟩)
    · exact Or.inr (Or.inr ⟨st', f, heq.trans h, hsort, hff, hs⟩)
  | none =>
    cases hrc : env.readyListsChildren with
    | error err =>
      exact Or.inl ⟨st0, .valueRej, by simp [refreshValid, hpx, hrc], rfl, rfl⟩
    | ok items =>
      have heq : refreshValid env st0 uxVal =
          refreshTraverse env { st0 with pxReadyTasksListsItems := some items } uxVal items := by
        simp [refreshValid, hpx, hrc]
      rcases refreshTraverse_shape env { st0 with pxReadyTasksListsItems := some items }
          uxVal items with
        ⟨st', e, h, hf, hs⟩ | ⟨st', h, hf, hs⟩ | ⟨st', f, h, hsort, hff, hs⟩
      · exact Or.inl ⟨st', e, heq.trans h, hf, hs⟩
      · exact Or.inr (Or.inl ⟨st', heq.trans h, hf, hs⟩)
      · exact Or.inr (Or.inr ⟨st', f, heq.trans h, hsort, hff, hs⟩)

theorem refresh_shape (env : DebugEnv) (st : RState) :
    (refresh env st = .resolved st none) ∨
    (∃ st' e, refresh env st = .resolved st' (some e) ∧
      st'.finalThreads = st.finalThreads ∧ st'.stale = true) ∨
    (∃ st', refresh env st = .hung st' ∧
      st'.finalThreads = st.finalThreads ∧ st'.stale = true) ∨
    (∃ st', refresh env st = .resolved st' none ∧ st'.stale = false ∧
      (st'.finalThreads = [] ∨
        ∃ f, sortFoundThreads f = .ok st'.finalThreads ∧
          st'.foundThreads = st'.finalThreads)) := by
  by_cases hps : st.progStatus = "stopped"
  case neg =>
    left
    have hbe : (st.progStatus != "stopped") = true := bne_iff_ne.mpr hps
    simp [refresh, hbe]
  case pos =>
    have hbe : (st.progStatus != "stopped") = false := by simp [bne, hps]
    cases hn : env.numTasksStr with
    | error err =>
      refine Or.inr (Or.inl ⟨{ st with
          stale := true, timeInfo := env.nowISO
          uxCurrentNumberOfTasksVal := some maxSafeInteger, foundThreads := [] },
        .valueRej, ?_, rfl, rfl⟩)
      simp [refresh, hbe, hn]
    | ok str =>
      by_cases hc : (jgt (if truthyS str then parseIntD str else some maxSafeInteger) 0 &&
          jle (if truthyS str then parseIntD str else some maxSafeInteger) maxThreads) = true
      · have heq : refresh env st =
            refreshValid env
              { st with
                stale := true, timeInfo := env.nowISO
                uxCurrentNumberOfTasksVal :=
                  if truthyS str then parseIntD str else some maxSafeInteger
                foundThreads := [] }
              (if truthyS str then parseIntD str else some maxSafeInteger) := by
          simp [refresh, hbe, hn, hc]
        rcases refreshValid_shape env
            { st with
              stale := true, timeInfo := env.nowISO
              uxCurrentNumberOfTasksVal :=
                if truthyS str then parseIntD str else some maxSafeInteger
              foundThreads := [] }
            (if truthyS str then parseIntD str else some maxSafeInteger) with
          ⟨st', e, h, hf, hs⟩ | ⟨st', h, hf, hs⟩ | ⟨st', f, h, hsort, hff, hs⟩
        · exact Or.inr (Or.inl ⟨st', e, heq.trans h, hf, hs⟩)
        · exact Or.inr (Or.inr (Or.inl ⟨st', heq.trans h, hf, hs⟩))
        · exact Or.inr (Or.inr (Or.inr ⟨st', heq.trans h, hs, Or.inr ⟨f, hsort, hff⟩⟩))
      · have hcf : (jgt (if truthyS str then parseIntD str else some maxSafeInteger) 0 &&
            jle (if truthyS str then parseIntD str else some maxSafeInteger) maxThreads) =
              false := by
          cases hb : (jgt (if truthyS str then parseIntD str else some maxSafeInteger) 0 &&
              jle (if truthyS str then parseIntD str else some maxSafeInteger) maxThreads)
          · rfl
          · exact absurd hb hc
        refine Or.inr (Or.inr (Or.inr ⟨{ st with
            stale := false
            timeInfo := env.nowISO ++ " in " ++ toString env.deltaMs ++ " ms"
            uxCurrentNumberOfTasksVal :=
              if truthyS str then parseIntD str else some maxSafeInteger
            foundThreads := [], finalThreads := [] },
          ?_, rfl, Or.inl rfl⟩))
        simp [refresh, hbe, hn, hcf]

/-! ### C6: exception safety of the refresh pass -/

/-- C6: a pass that catches an exception (or hangs on a never-settling
traversal promise) leaves the previously published `finalThreads` snapshot
untouched and the stale mark set, with the caught reason surfaced; a pass
that resolves without exception either leaves the snapshot untouched or has
run to completion — staleness cleared and the published snapshot either the
empty invalid-count one or the result of a whole-pass sort, installed in a
single assignment. -/
theorem refresh_exception_preserves_snapshot (env : DebugEnv) (st : RState) :
    (∀ st' e, refresh env st = .resolved st' (some e) →
      st'.finalThreads = st.finalThreads ∧ st'.stale = true) ∧
    (∀ st', refresh env st = .hung st' →
      st'.finalThreads = st.finalThreads ∧ st'.stale = true) ∧
    (∀ st', refresh env st = .resolved st' none →
      st'.finalThreads = st.finalThreads ∨
        (st'.stale = false ∧ (st'.finalThreads = [] ∨
          ∃ f, sortFoundThreads f = .ok st'.finalThreads ∧
            st'.foundThreads = st'.finalThreads))) := by
  rcases refresh_shape env st with h0 | ⟨st1, e1, h1, hf, hs⟩ | ⟨st1, h1, hf, hs⟩ |
    ⟨st1, h1, hs, hrest⟩
  · refine ⟨?_, ?_, ?_⟩
    · intro st' e h
      cases h0.symm.trans h
    · intro st' h
      cases h0.symm.trans h
    · intro st' h
      cases h0.symm.trans h
      exact Or.inl rfl
  · refine ⟨?_, ?_, ?_⟩
    · intro st' e h
      cases h1.symm.trans h
      exact ⟨hf, hs⟩
    · intro st' h
      cases h1.symm.trans h
    · intro st' h
      cases h1.symm.trans h
  · refine ⟨?_, ?_, ?_⟩
    · intro st' e h
      cases h1.symm.trans h
    · intro st' h
      cases h1.symm.trans h
      exact ⟨hf, hs⟩
    · intro st' h
      cases h1.symm.trans h
  · refine ⟨?_, ?_, ?_⟩
    · intro st' e h
      cases h1.symm.trans h
    · intro st' h
      cases h1.symm.trans h
    · intro st' h
      cases h1.symm.trans h
      exact Or.inr ⟨hs, hrest⟩

theorem refresh_exception_preserves_snapshot_witness :
    refresh envC6 stPrior = .resolved stC6after (some .valueRej) ∧
    stC6after.finalThreads = stPrior.finalThreads ∧ stC6after.stale = true := by
  have heq : refresh envC6 stPrior = .resolved stC6after (some .valueRej) := by rfl
  exact ⟨heq,
    (refresh_exception_preserves_snapshot envC6 stPrior).1 stC6after .valueRej heq⟩

/-! ### C10: a valid-count pass that collects no records -/

/-- C10: with a valid declared count (1..1024) but all six list traversals
collecting nothing (here: ready-bucket cache empty and the five other
handles unresolved), the pass throws while selecting the sort key — element
0 of the empty found-records list — the exception is caught internally, no
new snapshot is published, and the previous snapshot stays in place with
the stale mark set. -/
theorem valid_count_empty_pass (env : DebugEnv) (st : RState) (s : String) (v : Int)
    (cur : Option String)
    (hps : st.progStatus = "stopped")
    (hnum : env.numTasksStr = .ok (some s))
    (hv : parseIntStr s = some v) (h1 : 0 < v) (h2 : v ≤ 1024)
    (hready : st.pxReadyTasksListsItems = some [])
    (htot : st.hasULTotalRunTime = false)
    (hcur : env.curTCBStr = .ok cur)
    (hd1 : st.xDelayedTaskList1 = none) (hd2 : st.xDelayedTaskList2 = none)
    (hd3 : st.xPendingReadyList = none) (hd4 : st.xSuspendedTaskList = none)
    (hd5 : st.xTasksWaitingTermination = none) :
    ∃ st', refresh env st = .resolved st' (some .sortTypeError) ∧
      st'.finalThreads = st.finalThreads ∧ st'.stale = true ∧ st'.foundThreads = [] := by
  have hbe : (st.progStatus != "stopped") = false := by simp [bne, hps]
  have htr : truthyS (some s) = true := truthyS_of_parse hv
  have hcnd : (jgt (if truthyS (some s) then parseIntD (some s) else some maxSafeInteger) 0 &&
      jle (if truthyS (some s) then parseIntD (some s) else some maxSafeInteger)
        maxThreads) = true := by
    rw [htr]
    simp only [if_true, parseIntD, hv, jgt, jle, maxThreads]
    simp only [Bool.and_eq_true, decide_eq_true_eq]
    omega
  refine ⟨{ st with
      stale := true, timeInfo := env.nowISO
      uxCurrentNumberOfTasksVal := some v, curThreadAddr := parseIntD cur
      foundThreads := [] }, ?_, rfl, rfl, rfl⟩
  simp [refresh, refreshValid, refreshTraverse, refreshCur, refreshPublish, runLists,
    getThreadInfo, sortFoundThreads, chooseSortKey, refOk, hbe, hnum, htr, parseIntD, hv,
    hcnd, hready, htot, hcur, hd1, hd2, hd3, hd4, hd5]
  simp only [jgt, jle, maxThreads, decide_eq_true_eq]
  omega

theorem valid_count_empty_pass_witness :
    ∃ st', refresh envC10 stC10 = .resolved st' (some .sortTypeError) ∧
      st'.finalThreads = stC10.finalThreads ∧ st'.stale = true ∧ st'.foundThreads = [] :=
  valid_count_empty_pass envC10 stC10 "5" 5 (some "0x1234") rfl rfl (by decide) (by decide)
    (by decide) rfl rfl rfl rfl rfl rfl rfl rfl

/-! ### C1: invalid declared count, empty snapshot, rendering -/

/-- C1 (code bug): a pass whose declared count parses to a value above the
cap (and different from `Number.MAX_SAFE_INTEGER`) publishes the empty
snapshot with staleness cleared and no exception — but the subsequent
rendering *throws*: the count-mismatch branch of `getHTML` falls through to
`Object.keys(this.finalThreads[0])` on the empty snapshot, instead of the
promised diagnostic. -/
theorem implausible_count_render_throws (env : DebugEnv) (st : RState) (s : String) (v : Int)
    (hps : st.progStatus = "stopped") (hstat : st.status = "initialized")
    (hnum : env.numTasksStr = .ok (some s)) (hv : parseIntStr s = some v)
    (hbig : 1024 < v) (hneq : v ≠ maxSafeInteger) :
    ∃ st', refresh env st = .resolved st' none ∧ st'.finalThreads = [] ∧
      st'.stale = false ∧ getHTML st' = .error () := by
  have hbe : (st.progStatus != "stopped") = false := by simp [bne, hps]
  have htr : truthyS (some s) = true := truthyS_of_parse hv
  have hcnd : (jgt (if truthyS (some s) then parseIntD (some s) else some maxSafeInteger) 0 &&
      jle (if truthyS (some s) then parseIntD (some s) else some maxSafeInteger)
        maxThreads) = false := by
    rw [htr]
    simp only [if_true, parseIntD, hv, jgt, jle, maxThreads]
    have hgt : ¬ (v ≤ 1024) := by omega
    simp [hgt]
  refine ⟨{ st with
      stale := false
      timeInfo := env.nowISO ++ " in " ++ toString env.deltaMs ++ " ms"
      uxCurrentNumberOfTasksVal := some v, foundThreads := [], finalThreads := [] },
    ?_, rfl, rfl, ?_⟩
  · simp [refresh, hbe, hnum, htr, parseIntD, hv, hcnd]
    intro _ hle
    simp only [jle, maxThreads, decide_eq_true_eq] at hle
    omega
  · have hv0 : ¬ ((0 : Int) = v) := by omega
    simp [getHTML, htmlTable, hstat, jeqI, hneq, hv0]

theorem implausible_count_render_throws_witness :
    ∃ st', refresh envC1 stBase = .resolved st' none ∧ st'.finalThreads = [] ∧
      st'.stale = false ∧ getHTML st' = .error () :=
  implausible_count_render_throws envC1 stBase "2000" 2000 rfl rfl rfl (by decide)
    (by decide) (by decide)

end RTOSFreeRTOS
